import Mathlib

/-!
Verification of the CSV resource-upload parser (`src/csv_parser.py`,
`src/resource_uploader.py`) against its natural-language specification.

The Python code is shallowly embedded: rows are association lists from
column name to raw string, exceptions become `Except` results, the
mutable session state (`self.resources`, `self.err_log`, `self.files`)
is threaded explicitly, and `asyncio` task scheduling is modelled by
folding over the file list in an arbitrary order (completion-order
independence is proved over permutations of that list).
-/

deriving instance DecidableEq for Except

namespace UploadScript

/-- A CSV row as produced by `csv.DictReader`: an association list from
column name to raw string value (keys are unique in a real dict; lookup
takes the first binding, as a dict would). -/
abbrev Row := List (String × String)

/-- `field in row` for a Python dict. -/
def rowHas (row : Row) (k : String) : Bool :=
  (row.lookup k).isSome

/-- `row[field]` for a Python dict.  In the embedded code this is only
evaluated after a presence check, so the `""` default is never reached. -/
def rowGet (row : Row) (k : String) : String :=
  (row.lookup k).getD ""

/-- Python `s.split("+")`: split a string on the single character `+`.
Modelled at the character-list level so that the list-level
`splitOn`/`intercalate` lemmas apply. -/
def splitPlus (s : String) : List String :=
  (s.data.splitOn '+').map String.mk

/-- Python `"+".join(ts)`: the inverse direction of `splitPlus`. -/
def joinPlus (ts : List String) : String :=
  String.mk (List.intercalate ['+'] (ts.map String.data))

/-- Python `s.strip()`: drop whitespace from both ends, modelled at the
character-list level. -/
def pyStrip (s : String) : String :=
  String.mk (((s.data.dropWhile Char.isWhitespace).reverse.dropWhile
    Char.isWhitespace).reverse)

/-- Python `s.lower()`, modelled at the character-list level. -/
def pyLower (s : String) : String :=
  String.mk (s.data.map Char.toLower)

/-- The validation failures raised by the parser.  A raised Python
exception is embedded as the constructor naming its condition; the
`invalidColumns` / `missingRequiredField` constructors carry the full
error-log list from which the code formats its message
(`bulleted_list(self.err_log)`). -/
inductive ParseError where
  | unknownCategory (token : String)
  | unknownSubcategory (token : String)
  | invalidColumns (fp : String) (log : List String)
  | missingRequiredField (log : List String)
  | invalidEnumValue (field value : String)
  | invalidGradeFormat (raw : String)
  deriving Repr, DecidableEq

/-- The `for cat in cats: if cat not in vocab: raise` loop of
`CSVParser._validate_category_field`: returns the first token not in the
vocabulary, if any. -/
def findInvalidCat (vocab : List String) : List String → Option String
  | [] => none
  | c :: rest => if vocab.contains c then findInvalidCat vocab rest else some c

/-- `CSVParser._validate_category_field` (src/csv_parser.py:249-256):
split the raw value on `+` (no trimming), raise on the first token not
in the selected vocabulary, otherwise return the split list unchanged. -/
def validateCategoryField (vocab : List String) (cats : String)
    (subcategory : Bool) : Except ParseError (List String) :=
  match findInvalidCat vocab (splitPlus cats) with
  | some c =>
      .error (if subcategory then .unknownSubcategory c else .unknownCategory c)
  | none => .ok (splitPlus cats)

/-- Modelled from the spec: `ResourceDto` lives in `models.py`, which is
not under src/; its fields are taken from the spec's data model (§3) and
from the attribute names assigned in `CSVParser._parse_row`.  Every
field other than `id` starts as `None`; list-valued fields hold the
ordered token sequences produced by the validators. -/
structure ResourceDto where
  id : Nat := 0
  businessName : Option String := none
  streetAddress : Option String := none
  state : Option String := none
  city : Option String := none
  zipCode : Option String := none
  phone : Option String := none
  webSite : Option String := none
  description : Option String := none
  category : Option (List String) := none
  subCategory : Option (List String) := none
  startGrade : Option String := none
  endGrade : Option String := none
  careerInterest : Option (List String) := none
  cost : Option String := none
  instruction : Option (List String) := none
  boarding : Option (List String) := none
  gender : Option String := none
  locationLimit : Option (List String) := none
  deriving Repr, DecidableEq

/-- Modelled from the spec: `ResourceDto.__annotations__.keys()` as used
by `_validate_column_names` — the declared attribute names of the record
(`models.py` is not under src/). -/
def resourceDtoAttrs : List String :=
  ["id", "businessName", "streetAddress", "state", "city", "zipCode",
   "phone", "webSite", "description", "category", "subCategory",
   "startGrade", "endGrade", "careerInterest", "cost", "instruction",
   "boarding", "gender", "locationLimit"]

/-- Modelled from the spec: `validate_field` from `utils/parsing`
(not under src/) — §4.2: returns the row's raw value for the column if
it is present and non-empty after trimming, otherwise signals absent. -/
def validate_field (field : String) (row : Row) : Option String :=
  match row.lookup field with
  | none => none
  | some v => if pyStrip v = "" then none else some v

/-- Modelled from the spec: the Enum Registry (`enums.py` is not under
src/) — §4.1: each closed vocabulary is a list of canonical member
tokens, matched case-insensitively. -/
structure EnumRegistry where
  stateVocab : List String := []
  interestVocab : List String := []
  costVocab : List String := []
  instructionVocab : List String := []
  boardingVocab : List String := []
  genderVocab : List String := []
  locationLimitVocab : List String := []
  deriving Repr, DecidableEq

/-- Modelled from the spec: case-normalized membership lookup in a
closed vocabulary (§4.1), returning the canonical stored form. -/
def enumLookup (vocab : List String) (v : String) : Option String :=
  vocab.find? (fun m => pyLower m == pyLower (pyStrip v))

/-- Modelled from the spec: `validate_enum_field` from `utils/parsing`
(not under src/) — §4.2: absent when the column is missing or blank,
the canonical member on a case-insensitive match, and an
`InvalidEnumValue` failure when present but not a member. -/
def validate_enum_field (vocab : List String) (field : String) (row : Row) :
    Except ParseError (Option String) :=
  match row.lookup field with
  | none => .ok none
  | some v =>
      if pyStrip v = "" then .ok none
      else
        match enumLookup vocab v with
        | some m => .ok (some m)
        | none => .error (.invalidEnumValue field v)

/-- Token-by-token lookup for a list-enum value; fails with
`InvalidEnumValue` on the first token that is not a member. -/
def lookupTokens (vocab : List String) (field : String) :
    List String → Except ParseError (List String)
  | [] => .ok []
  | t :: rest =>
      match enumLookup vocab t with
      | none => .error (.invalidEnumValue field t)
      | some m =>
          match lookupTokens vocab field rest with
          | .ok ms => .ok (m :: ms)
          | .error e => .error e

/-- Modelled from the spec: `validate_list_enum_field` from
`utils/parsing` (not under src/) — §4.2: split the raw value on `+`,
trim each token, validate each against the vocabulary (first invalid
token fails); order preserved, duplicates permitted. -/
def validate_list_enum_field (vocab : List String) (field : String)
    (row : Row) : Except ParseError (Option (List String)) :=
  match row.lookup field with
  | none => .ok none
  | some v =>
      if pyStrip v = "" then .ok none
      else
        match lookupTokens vocab field ((splitPlus v).map pyStrip) with
        | .ok ms => .ok (some ms)
        | .error e => .error e

/-- Modelled from the spec: `parse_grade` from `utils/parsing`
(not under src/) — §4.2: decompose a grade-span column such as "K-5"
into its two bounds; blank means absent; a value that does not
decompose into two non-empty bounds fails with `InvalidGradeFormat`. -/
def parse_grade (raw : String) : Except ParseError (Option (String × String)) :=
  if pyStrip raw = "" then .ok none
  else
    match (raw.data.splitOn '-').map String.mk with
    | [a, b] =>
        if pyStrip a = "" || pyStrip b = "" then .error (.invalidGradeFormat raw)
        else .ok (some (pyStrip a, pyStrip b))
    | _ => .error (.invalidGradeFormat raw)

/-- The messages `_validate_column_names` appends to `self.err_log`:
one entry per header field that is neither a `ResourceDto` attribute
nor an allowed extra field (the `cfg.allowed_fields` set is not under
src/, so it is a parameter here). -/
def columnErrorMsgs (allowed : List String) (fp : String)
    (fields : List String) : List String :=
  fields.filterMap fun f =>
    if resourceDtoAttrs.contains f || allowed.contains f then none
    else some (fp ++ ": \x22" ++ f ++ "\x22 is not a valid field")

/-- `CSVParser._validate_column_names` (src/csv_parser.py:223-235):
scan the whole header, appending a log entry for each invalid field,
then raise (carrying the entire session error log, from which the code
formats its message) if any was found.  Returns the updated error log
and the outcome. -/
def validateColumnNames (allowed : List String) (fp : String)
    (fields : List String) (errLog : List String) :
    List String × Except ParseError Unit :=
  let newLog := errLog ++ columnErrorMsgs allowed fp fields
  if columnErrorMsgs allowed fp fields = [] then (newLog, .ok ())
  else (newLog, .error (.invalidColumns fp newLog))

/-- The three required row fields checked by
`_validate_required_fields`. -/
def requiredFields : List String := ["businessName", "category", "subCategory"]

/-- The messages `_validate_required_fields` appends to `self.err_log`:
one entry per required field missing from the row. -/
def missingFieldMsgs (row : Row) : List String :=
  requiredFields.filterMap fun f =>
    if rowHas row f then none
    else some ("\x22" ++ f ++ "\x22 is a required row")

/-- `CSVParser._validate_required_fields` (src/csv_parser.py:237-247):
scan all three required fields, appending a log entry for each missing
one, then raise (carrying the entire session error log) if any was
missing. -/
def validateRequiredFields (row : Row) (errLog : List String) :
    List String × Except ParseError Unit :=
  let newLog := errLog ++ missingFieldMsgs row
  if missingFieldMsgs row = [] then (newLog, .ok ())
  else (newLog, .error (.missingRequiredField newLog))

/-- The simple-field loop of `_parse_row` (src/csv_parser.py:111-120):
for each of the six optional scalar columns, set the attribute to the
row's raw value when `validate_field` signals present. -/
def applySimpleFields (r : ResourceDto) (row : Row) : ResourceDto :=
  let r := if (validate_field "streetAddress" row).isSome then
    { r with streetAddress := some (rowGet row "streetAddress") } else r
  let r := if (validate_field "city" row).isSome then
    { r with city := some (rowGet row "city") } else r
  let r := if (validate_field "zipCode" row).isSome then
    { r with zipCode := some (rowGet row "zipCode") } else r
  let r := if (validate_field "phone" row).isSome then
    { r with phone := some (rowGet row "phone") } else r
  let r := if (validate_field "webSite" row).isSome then
    { r with webSite := some (rowGet row "webSite") } else r
  let r := if (validate_field "description" row).isSome then
    { r with description := some (rowGet row "description") } else r
  r

/-- The grade assignment of `_parse_row`: when `parse_grade` returned a
span, set `startGrade`/`endGrade` together. -/
def applyGrade (r : ResourceDto) : Option (String × String) → ResourceDto
  | some g => { r with startGrade := some g.1, endGrade := some g.2 }
  | none => r

/-- The `state` assignment of `_parse_row`:
`if res := validate_enum_field(State, "state", row): resource.state = res`. -/
def applyState (r : ResourceDto) : Option String → ResourceDto
  | some v => { r with state := some v }
  | none => r

/-- The `careerInterest` assignment of `_parse_row`. -/
def applyInterest (r : ResourceDto) : Option (List String) → ResourceDto
  | some v => { r with careerInterest := some v }
  | none => r

/-- The `cost` assignment of `_parse_row`. -/
def applyCost (r : ResourceDto) : Option String → ResourceDto
  | some v => { r with cost := some v }
  | none => r

/-- The `instruction` assignment of `_parse_row`. -/
def applyInstruction (r : ResourceDto) : Option (List String) → ResourceDto
  | some v => { r with instruction := some v }
  | none => r

/-- The `boarding` assignment of `_parse_row`. -/
def applyBoarding (r : ResourceDto) : Option (List String) → ResourceDto
  | some v => { r with boarding := some v }
  | none => r

/-- The `gender` assignment of `_parse_row`. -/
def applyGender (r : ResourceDto) : Option String → ResourceDto
  | some v => { r with gender := some v }
  | none => r

/-- The `locationLimit` assignment of `_parse_row`. -/
def applyLocationLimit (r : ResourceDto) : Option (List String) → ResourceDto
  | some v => { r with locationLimit := some v }
  | none => r

/-- Sequencing with raise propagation: run the validator, and on a
raised error propagate it, otherwise continue with its value (the
semicolon between two raising statements in Python). -/
def exceptStep {a b : Type} (x : Except ParseError a)
    (f : a -> Except ParseError b) : Except ParseError b :=
  match x with
  | .error e => .error e
  | .ok v => f v

/-- The body of `CSVParser._parse_row` after the required-field check
(src/csv_parser.py:107-163): set `businessName` from the row, apply the
optional scalar fields, validate category and subcategory against the
session vocabularies, then grade range and the enum-valued fields, in
the source's order.  Pure: the error log is untouched past the
required-field check, so it is not threaded here. -/
def parseRowCore (env : EnumRegistry) (categories subcategories : List String)
    (row : Row) : Except ParseError ResourceDto :=
  exceptStep (validateCategoryField categories (rowGet row "category") false) fun cs =>
  exceptStep (validateCategoryField subcategories (rowGet row "subCategory") true) fun ss =>
  exceptStep (if rowHas row "GRADELEVEL"
      then parse_grade (rowGet row "GRADELEVEL") else .ok none) fun go =>
  exceptStep (validate_enum_field env.stateVocab "state" row) fun so =>
  exceptStep (validate_list_enum_field env.interestVocab "careerInterest" row) fun io =>
  exceptStep (validate_enum_field env.costVocab "cost" row) fun co =>
  exceptStep (validate_list_enum_field env.instructionVocab "instruction" row) fun no =>
  exceptStep (validate_list_enum_field env.boardingVocab "boarding" row) fun bo =>
  exceptStep (validate_enum_field env.genderVocab "gender" row) fun ho =>
  exceptStep (validate_list_enum_field env.locationLimitVocab "locationLimit" row) fun lo =>
      .ok (applyLocationLimit (applyGender (applyBoarding (applyInstruction
        (applyCost (applyInterest (applyState (applyGrade
          ({ applySimpleFields
              { id := 0, businessName := some (rowGet row "businessName") } row
            with category := some cs, subCategory := some ss })
          go) so) io) co) no) bo) ho) lo)

/-- `CSVParser._parse_row` (src/csv_parser.py:89-163): required-field
check first (which may append to the session error log and raise),
then the pure normalization of `parseRowCore`. -/
def parseRow (env : EnumRegistry) (categories subcategories : List String)
    (row : Row) (errLog : List String) :
    List String × Except ParseError ResourceDto :=
  match validateRequiredFields row errLog with
  | (log1, .error e) => (log1, .error e)
  | (log1, .ok ()) => (log1, parseRowCore env categories subcategories row)

/-- A CSV file as seen by `csv.DictReader`: a header line and the data
lines. -/
structure CSVFile where
  header : List String
  rows : List (List String)
  deriving Repr, DecidableEq

/-- The rows `csv.DictReader` yields: each data line zipped with the
header into a column-name → value mapping. -/
def fileRows (f : CSVFile) : List Row :=
  f.rows.map (fun vals => f.header.zip vals)

/-- The mutable parse-session state of `CSVParser` touched while
parsing rows: `self.resources` and `self.err_log`. -/
structure SessionState where
  resources : List ResourceDto
  errLog : List String
  deriving Repr, DecidableEq

/-- The record §8's example row 1 normalizes to: `businessName` and
`phone` set from the row, the validated category/subcategory token
lists, everything else absent. -/
def acmeRecord : ResourceDto :=
  { id := 0, businessName := some "Acme", phone := some "555-1212",
    category := some ["Tutoring"], subCategory := some ["Math"] }

/-- The `for row in reader` loop of `_parse_csv`
(src/csv_parser.py:81-85): parse each row in file order, append the
record to `self.resources` and bump the row count; a raised validation
error propagates at once, leaving the remaining rows unvisited. -/
def parseRowsLoop (env : EnumRegistry) (categories subcategories : List String)
    (st : SessionState) (n : Nat) :
    List Row → SessionState × Except ParseError Nat
  | [] => (st, .ok n)
  | row :: rest =>
      match parseRow env categories subcategories row st.errLog with
      | (log1, .error e) => ({ st with errLog := log1 }, .error e)
      | (log1, .ok r) =>
          parseRowsLoop env categories subcategories
            { resources := st.resources ++ [r], errLog := log1 } (n + 1) rest

/-- `CSVParser._parse_csv` (src/csv_parser.py:70-87): validate the
header's column names, then parse every row, returning the number of
rows parsed. -/
def parseCsv (env : EnumRegistry) (allowed : List String)
    (categories subcategories : List String) (fp : String) (f : CSVFile)
    (st : SessionState) : SessionState × Except ParseError Nat :=
  match validateColumnNames allowed fp f.header st.errLog with
  | (log1, .error e) => ({ st with errLog := log1 }, .error e)
  | (log1, .ok ()) =>
      parseRowsLoop env categories subcategories { st with errLog := log1 } 0 (fileRows f)

/-- `CSVParser._parse_all` (src/csv_parser.py:63-68): one task per
file, `asyncio.gather`ed, returning the sum of the per-file counts.
The cooperative tasks are modelled by folding over the file list; the
order of the list stands for the completion order of the tasks, and the
completion-order independence demanded by the spec is proved over all
permutations of it. -/
def parseAll (env : EnumRegistry) (allowed : List String)
    (categories subcategories : List String) (st : SessionState) :
    List (String × CSVFile) → SessionState × Except ParseError Nat
  | [] => (st, .ok 0)
  | (fp, f) :: rest =>
      match parseCsv env allowed categories subcategories fp f st with
      | (st1, .error e) => (st1, .error e)
      | (st1, .ok n) =>
          match parseAll env allowed categories subcategories st1 rest with
          | (st2, .error e) => (st2, .error e)
          | (st2, .ok m) => (st2, .ok (n + m))

/-- Python `fp.endswith(".csv")`, modelled at the character-list
level. -/
def pyEndsWith (s suff : String) : Bool :=
  suff.data.isSuffixOf s.data

/-- An existing file-system node, as probed by `_process_fp`: a regular
file, a directory with named children, or something else that exists
(neither file nor directory). -/
inductive FsNode where
  | file : FsNode
  | dir : List (String × FsNode) → FsNode
  | other : FsNode
  deriving Repr

/-- `self.files.add(fp)` — the session file set, modelled as a
duplicate-free insertion list. -/
def insertFile (files : List String) (fp : String) : List String :=
  if files.contains fp then files else files ++ [fp]

mutual

/-- `CSVParser._process_fp` (src/csv_parser.py:202-221) on a path that
exists, resolved to its node: a `.csv` regular file joins
`self.files`; a directory is recursed into (its listed children exist,
so they are visited as nodes directly); anything else that exists is
silently skipped.  Returns the updated file set, error log, and the
count of not-found failures. -/
def processFpNode (fp : String) (node : FsNode)
    (files errLog : List String) : List String × List String × Nat :=
  match node with
  | .file =>
      if pyEndsWith fp ".csv" then (insertFile files fp, errLog, 0)
      else (files, errLog, 0)
  | .dir children => processChildren fp children files errLog
  | .other => (files, errLog, 0)

/-- The `for p in os.listdir(fp)` loop of `_process_fp`: visit each
child under `fp/p`, accumulating the failure counts. -/
def processChildren (fp : String) (cs : List (String × FsNode))
    (files errLog : List String) : List String × List String × Nat :=
  match cs with
  | [] => (files, errLog, 0)
  | (name, child) :: rest =>
      let r1 := processFpNode (fp ++ "/" ++ name) child files errLog
      let r2 := processChildren fp rest r1.1 r1.2.1
      (r2.1, r2.2.1, r1.2.2 + r2.2.2)

end

/-- `CSVParser._process_fp` on an arbitrary path: a path that resolves
to no node appends a not-found message to `self.err_log` and counts one
failure (raised later, in aggregate, by `_process_args`). -/
def processFp (fp : String) (node : Option FsNode)
    (files errLog : List String) : List String × List String × Nat :=
  match node with
  | some n => processFpNode fp n files errLog
  | none => (files, errLog ++ ["Path \x22" ++ fp ++ "\x22 does not exist"], 1)

/-- The remote endpoint's reply to one `POST /resource/save` request:
the HTTP status, the assigned id found at `data["data"]["id"]`, and the
raw body used in failure messages. -/
structure UploadResponse where
  status : Nat
  resId : Nat
  raw : String := ""
  deriving Repr, DecidableEq

/-- The failure message `ResourceUploader.upload` appends to
`self.err_log` for one non-200 response. -/
def uploadFailMsg (r : ResourceDto) (resp : UploadResponse) : String :=
  "Resource " ++ r.businessName.getD "None" ++ " failed to upload: " ++ resp.raw

/-- The `for resource in resources` loop of `ResourceUploader.upload`
(src/resource_uploader.py:22-36): count successes, collect their
assigned ids in order, and log each failure.  Returns
(n_uploaded, err, uploaded, err_log). -/
def uploadLoop : List (ResourceDto × UploadResponse) → Nat → Nat →
    List Nat → List String → Nat × Nat × List Nat × List String
  | [], n, e, ids, log => (n, e, ids, log)
  | (r, resp) :: rest, n, e, ids, log =>
      if resp.status = 200 then
        uploadLoop rest (n + 1) e (ids ++ [resp.resId]) log
      else
        uploadLoop rest n (e + 1) ids (log ++ [uploadFailMsg r resp])

/-- The observable outcome of `ResourceUploader.upload`: the contents
of the rollback-id file `rollback_ids/<pid>.txt` (`none` when the file
was never written), the final error log, and either the raised
`ResourceUploadError` (carrying the failure count and the log its
message is formatted from) or the returned count. -/
structure UploadResult where
  rollbackFile : Option (List Nat)
  errLog : List String
  outcome : Except (Nat × List String) Nat
  deriving Repr

/-- `ResourceUploader.upload` (src/resource_uploader.py:15-58): post
every record, then — before any exception is raised — write the
collected ids of the successes to the rollback-id file (skipped when
there were none), and only then raise the aggregate error if any record
failed, else return the success count.  The network is abstracted as
the list of responses paired with the records. -/
def upload (items : List (ResourceDto × UploadResponse))
    (errLog0 : List String) : UploadResult :=
  let res := uploadLoop items 0 0 [] errLog0
  { rollbackFile := if res.2.2.1.length > 0 then some res.2.2.1 else none
    errLog := res.2.2.2
    outcome := if res.2.1 > 0 then .error (res.2.1, res.2.2.2) else .ok res.1 }

/-- Spec-side view: the assigned ids of the records that uploaded
successfully, in order. -/
def successIds (items : List (ResourceDto × UploadResponse)) : List Nat :=
  items.filterMap fun it => if it.2.status = 200 then some it.2.resId else none

/-- Spec-side view: the records that failed to upload. -/
def failedUploads (items : List (ResourceDto × UploadResponse)) :
    List (ResourceDto × UploadResponse) :=
  items.filter fun it => it.2.status ≠ 200

/-- Spec-side view: the failure messages logged for the records that
failed, in order. -/
def uploadFailMsgs (items : List (ResourceDto × UploadResponse)) : List String :=
  items.filterMap fun it =>
    if it.2.status = 200 then none else some (uploadFailMsg it.1 it.2)

/-- Spec-side view: the records a file's rows normalize to, when the
required-field check and the Row Normalizer accept every row (`none` as
soon as any row fails). -/
def rowsRecords (env : EnumRegistry) (cats subs : List String) :
    List Row → Option (List ResourceDto)
  | [] => some []
  | row :: rest =>
      if missingFieldMsgs row = [] then
        match parseRowCore env cats subs row with
        | .ok r => (rowsRecords env cats subs rest).map (fun rs => r :: rs)
        | .error _ => none
      else none

/-- Spec-side view: the records a whole file parses to when its header
and every row pass validation. -/
def parseFilePure (env : EnumRegistry) (allowed cats subs : List String)
    (fp : String) (f : CSVFile) : Option (List ResourceDto) :=
  if columnErrorMsgs allowed fp f.header = [] then
    rowsRecords env cats subs (fileRows f)
  else none

/-- Spec-side view: the records of a list of files, concatenated in
list order. -/
def filesRecords (env : EnumRegistry) (allowed cats subs : List String)
    (files : List (String × CSVFile)) : List ResourceDto :=
  (files.map fun pf =>
    (parseFilePure env allowed cats subs pf.1 pf.2).getD []).flatten

/-- A two-record upload batch whose second record is refused by the
endpoint. -/
def demoUploadItems : List (ResourceDto × UploadResponse) :=
  [({}, { status := 200, resId := 7 }),
   ({}, { status := 500, resId := 0, raw := "boom" })]

/-- A one-row valid file. -/
def demoFileA : String × CSVFile :=
  ("a.csv", { header := ["businessName", "category", "subCategory"],
              rows := [["Acme", "T", "M"]] })

/-- A two-row valid file. -/
def demoFileB : String × CSVFile :=
  ("b.csv", { header := ["businessName", "category", "subCategory"],
              rows := [["Beta", "T", "M"], ["Beta2", "T", "M"]] })

/-! ## Claim theorems -/

theorem findInvalidCat_eq_find? (vocab : List String) (l : List String) :
    findInvalidCat vocab l = l.find? (fun t => ! vocab.contains t) := by
  induction l with
  | nil => rfl
  | cons c rest ih =>
      simp only [findInvalidCat, List.find?, List.contains, List.elem_eq_mem] at *
      by_cases h : c ∈ vocab
      · simp [h, ih]
      · simp [h]

theorem findInvalidCat_eq_none (vocab : List String) (l : List String)
    (h : ∀ t ∈ l, vocab.contains t) :
    findInvalidCat vocab l = none := by
  rw [findInvalidCat_eq_find?]
  rw [List.find?_eq_none]
  intro t ht
  have hc := h t ht
  simpa using hc

theorem joinPlus_splitPlus (s : String) : joinPlus (splitPlus s) = s := by
  unfold joinPlus splitPlus
  rw [List.map_map]
  have hfun : (String.data ∘ String.mk) = fun l : List Char => l := by
    funext l
    rfl
  rw [hfun]
  rw [List.map_id']
  rw [List.intercalate_splitOn]


/-- C1 counterexample: the claim says the Category Validator trims each
`+`-separated part before the membership check and succeeds when every
trimmed part is in the vocabulary.  On `"Tutoring+ Mentoring"` with
vocabulary `{Tutoring, Mentoring}` every trimmed part is a member, yet
the code raises `UnknownCategory(" Mentoring")`: `split("+")` is not
followed by any trimming. -/
theorem c1_counterexample :
    (∀ t ∈ (splitPlus "Tutoring+ Mentoring").map pyStrip,
        t ∈ (["Tutoring", "Mentoring"] : List String))
    ∧ validateCategoryField ["Tutoring", "Mentoring"] "Tutoring+ Mentoring" false
        = .error (.unknownCategory " Mentoring") := by
  constructor
  · decide
  · decide

/-- C1 (amended): the Category Validator splits the raw value on `+`
without trimming; it returns the sequence of (untrimmed) parts exactly
when every part is a member of the selected vocabulary, and otherwise
fails with `UnknownCategory` (resp. `UnknownSubcategory` when the
subcategory flag is set) naming the first unrecognized (untrimmed)
token. -/
theorem c1_category_validation (vocab : List String) (cats : String) (sub : Bool) :
    (validateCategoryField vocab cats sub = .ok (splitPlus cats)
        ↔ ∀ t ∈ splitPlus cats, vocab.contains t)
    ∧ (∀ t, (splitPlus cats).find? (fun x => ! vocab.contains x) = some t →
        validateCategoryField vocab cats sub
          = .error (if sub then .unknownSubcategory t else .unknownCategory t)) := by
  have hf := findInvalidCat_eq_find? vocab (splitPlus cats)
  cases h : (splitPlus cats).find? (fun x => ! vocab.contains x) with
  | none =>
      have hok : validateCategoryField vocab cats sub = .ok (splitPlus cats) := by
        unfold validateCategoryField
        rw [hf, h]
      refine ⟨⟨fun _ t ht => ?_, fun _ => hok⟩, fun t hsome => ?_⟩
      · have hn := List.find?_eq_none.mp h t ht
        simpa using hn
      · exact Option.noConfusion hsome
  | some t0 =>
      have herr : validateCategoryField vocab cats sub
          = .error (if sub then .unknownSubcategory t0 else .unknownCategory t0) := by
        unfold validateCategoryField
        rw [hf, h]
      refine ⟨⟨fun hok => ?_, fun hall => ?_⟩, fun t hsome => ?_⟩
      · rw [herr] at hok
        exact Except.noConfusion hok
      · have hmem := List.mem_of_find?_eq_some h
        have hp := List.find?_some h
        have hm := hall t0 hmem
        rw [hm] at hp
        simp at hp
      · injection hsome with ht
        rw [herr, ht]

/-- C1 witness: instantiating the amended theorem at vocabulary
`{A}` and raw value `"A+B"`. -/
theorem c1_category_validation_witness :
    validateCategoryField ["A"] "A+B" false = .error (.unknownCategory "B") := by
  have h := (c1_category_validation ["A"] "A+B" false).2 "B" (by decide)
  simpa using h

/-- C8: when every `+`-separated token of the raw value is in the
vocabulary, the Category Validator returns exactly the split token
list — order preserved and duplicates kept — so joining the result on
`+` reproduces the input string. -/
theorem c8_order_preserved (vocab : List String) (cats : String) (sub : Bool)
    (h : ∀ t ∈ splitPlus cats, vocab.contains t) :
    validateCategoryField vocab cats sub = .ok (splitPlus cats)
    ∧ joinPlus (splitPlus cats) = cats := by
  constructor
  · unfold validateCategoryField
    rw [findInvalidCat_eq_none vocab _ h]
  · exact joinPlus_splitPlus cats

/-- C8 witness: a value with a duplicate token, `"A+B+A"`, validates to
the duplicate-preserving list `["A", "B", "A"]` and joins back to the
original string. -/
theorem c8_order_preserved_witness :
    splitPlus "A+B+A" = ["A", "B", "A"]
    ∧ (validateCategoryField ["A", "B"] "A+B+A" false = .ok (splitPlus "A+B+A")
        ∧ joinPlus (splitPlus "A+B+A") = "A+B+A") :=
  ⟨by decide, c8_order_preserved ["A", "B"] "A+B+A" false (by decide)⟩

theorem columnErrorMsgs_eq_nil (allowed : List String) (fp : String)
    (fields : List String) :
    columnErrorMsgs allowed fp fields = []
      ↔ ∀ f ∈ fields,
          (resourceDtoAttrs.contains f || allowed.contains f) = true := by
  unfold columnErrorMsgs
  rw [List.filterMap_eq_nil_iff]
  constructor
  · intro h f hf
    have hn := h f hf
    by_contra hb
    simp at hb
    simp [hb.1, hb.2] at hn
  · intro h f hf
    have hc := h f hf
    simp at hc
    rcases hc with h1 | h1 <;> simp [h1]

theorem mem_columnErrorMsgs (allowed : List String) (fp : String)
    (fields : List String) (f : String) (hf : f ∈ fields)
    (hbad : (resourceDtoAttrs.contains f || allowed.contains f) = false) :
    (fp ++ ": \x22" ++ f ++ "\x22 is not a valid field")
      ∈ columnErrorMsgs allowed fp fields := by
  unfold columnErrorMsgs
  rw [List.mem_filterMap]
  refine ⟨f, hf, ?_⟩
  simp at hbad
  simp [hbad.1, hbad.2]

/-- C5: header validation raises `InvalidColumns` exactly when some
header field is neither a `ResourceDto` attribute name nor an
allowed extra field; it scans the entire header, recording a log entry
for every offending name (all of which appear in the raised error),
and a header of only schema names and allowed extras never raises. -/
theorem c5_column_names (allowed : List String) (fp : String)
    (fields : List String) (log : List String) :
    ((∃ e, (validateColumnNames allowed fp fields log).2 = .error e)
        ↔ ∃ f ∈ fields,
            (resourceDtoAttrs.contains f || allowed.contains f) = false)
    ∧ (∀ e, (validateColumnNames allowed fp fields log).2 = .error e →
        e = .invalidColumns fp (log ++ columnErrorMsgs allowed fp fields)
        ∧ ∀ f ∈ fields,
            (resourceDtoAttrs.contains f || allowed.contains f) = false →
            (fp ++ ": \x22" ++ f ++ "\x22 is not a valid field")
              ∈ log ++ columnErrorMsgs allowed fp fields)
    ∧ ((∀ f ∈ fields,
            (resourceDtoAttrs.contains f || allowed.contains f) = true) →
        (validateColumnNames allowed fp fields log).2 = .ok ()) := by
  by_cases h : columnErrorMsgs allowed fp fields = []
  · have hall := (columnErrorMsgs_eq_nil allowed fp fields).mp h
    refine ⟨⟨fun he => ?_, fun hex => ?_⟩, fun e he => ?_, fun _ => ?_⟩
    · obtain ⟨e, he⟩ := he
      simp [validateColumnNames, h] at he
    · obtain ⟨f, hf, hbad⟩ := hex
      rw [hall f hf] at hbad
      exact Bool.noConfusion hbad
    · simp [validateColumnNames, h] at he
    · simp [validateColumnNames, h]
  · have hbadex : ∃ f ∈ fields,
        (resourceDtoAttrs.contains f || allowed.contains f) = false := by
      by_contra hno
      push_neg at hno
      refine h ((columnErrorMsgs_eq_nil allowed fp fields).mpr ?_)
      intro f hf
      have := hno f hf
      cases hb : resourceDtoAttrs.contains f || allowed.contains f
      · exact absurd hb this
      · rfl
    refine ⟨⟨fun _ => hbadex, fun _ => ?_⟩, fun e he => ?_, fun hall => ?_⟩
    · exact ⟨.invalidColumns fp (log ++ columnErrorMsgs allowed fp fields),
        by simp [validateColumnNames, h]⟩
    · have he2 : e = ParseError.invalidColumns fp
          (log ++ columnErrorMsgs allowed fp fields) := by
        simp [validateColumnNames, h] at he
        exact he.symm
      refine ⟨he2, fun f hf hbad => ?_⟩
      exact List.mem_append_right log (mem_columnErrorMsgs allowed fp fields f hf hbad)
    · exact absurd ((columnErrorMsgs_eq_nil allowed fp fields).mpr hall) h

/-- C5 witness: a header with the schema name `businessName`, the
allowed extra `GRADELEVEL`, and the stray name `oops` raises
`InvalidColumns`, and the stray name's message is recorded. -/
theorem c5_column_names_witness :
    (∃ e, (validateColumnNames ["GRADELEVEL"] "a.csv"
        ["businessName", "GRADELEVEL", "oops"] []).2 = .error e)
    ∧ ("a.csv" ++ ": \x22" ++ "oops" ++ "\x22 is not a valid field")
        ∈ ([] ++ columnErrorMsgs ["GRADELEVEL"] "a.csv"
            ["businessName", "GRADELEVEL", "oops"])
    ∧ (validateColumnNames ["GRADELEVEL"] "b.csv"
        ["businessName", "category", "GRADELEVEL"] []).2 = .ok () := by
  refine ⟨?_, ?_, ?_⟩
  · exact (c5_column_names ["GRADELEVEL"] "a.csv"
      ["businessName", "GRADELEVEL", "oops"] []).1.mpr ⟨"oops", by decide, by decide⟩
  · exact ((c5_column_names ["GRADELEVEL"] "a.csv"
      ["businessName", "GRADELEVEL", "oops"] []).2.1
        (.invalidColumns "a.csv" ([] ++ columnErrorMsgs ["GRADELEVEL"] "a.csv"
          ["businessName", "GRADELEVEL", "oops"])) (by decide)).2
        "oops" (by decide) (by decide)
  · exact (c5_column_names ["GRADELEVEL"] "b.csv"
      ["businessName", "category", "GRADELEVEL"] []).2.2 (by decide)

/-- C4: the required-field check raises `MissingRequiredField` exactly
when at least one of `businessName`, `category`, `subCategory` is
absent from the row, and it scans all three first: the raised error's
log carries a message for every missing one of the three. -/
theorem c4_missing_required (row : Row) (log : List String) :
    ((∃ e, (validateRequiredFields row log).2 = .error e)
        ↔ (rowHas row "businessName" = false ∨ rowHas row "category" = false
            ∨ rowHas row "subCategory" = false))
    ∧ (∀ e, (validateRequiredFields row log).2 = .error e →
        e = .missingRequiredField (log ++ missingFieldMsgs row)
        ∧ ∀ f ∈ requiredFields, rowHas row f = false →
            ("\x22" ++ f ++ "\x22 is a required row")
              ∈ log ++ missingFieldMsgs row) := by
  unfold validateRequiredFields
  by_cases hb : rowHas row "businessName"
    <;> by_cases hc : rowHas row "category"
    <;> by_cases hs : rowHas row "subCategory"
    <;> simp [missingFieldMsgs, requiredFields, hb, hc, hs]

/-- C4 witness: a row holding only `businessName` raises, and the
carried log lists both `category` and `subCategory` as missing. -/
theorem c4_missing_required_witness :
    ("\x22" ++ "category" ++ "\x22 is a required row")
        ∈ [] ++ missingFieldMsgs ([("businessName", "Acme")] : Row)
    ∧ ("\x22" ++ "subCategory" ++ "\x22 is a required row")
        ∈ [] ++ missingFieldMsgs ([("businessName", "Acme")] : Row) := by
  have h := (c4_missing_required [("businessName", "Acme")] []).2
    (.missingRequiredField ([] ++ missingFieldMsgs [("businessName", "Acme")]))
    (by decide)
  exact ⟨h.2 "category" (by decide) (by decide),
    h.2 "subCategory" (by decide) (by decide)⟩

/-- C10: both header validation and the required-field check build the
raised exception from the entire shared session error log: the error
carries `log ++ newEntries`, so every message accumulated earlier in
the run appears in it. -/
theorem c10_error_log_shared (allowed : List String) (fp : String)
    (fields : List String) (row : Row) (log : List String) :
    (∀ e, (validateColumnNames allowed fp fields log).2 = .error e →
        e = .invalidColumns fp (log ++ columnErrorMsgs allowed fp fields)
        ∧ ∀ m ∈ log, m ∈ log ++ columnErrorMsgs allowed fp fields)
    ∧ (∀ e, (validateRequiredFields row log).2 = .error e →
        e = .missingRequiredField (log ++ missingFieldMsgs row)
        ∧ ∀ m ∈ log, m ∈ log ++ missingFieldMsgs row) := by
  constructor
  · intro e he
    unfold validateColumnNames at he
    by_cases h : columnErrorMsgs allowed fp fields = []
    · simp [h] at he
    · simp [h] at he
      exact ⟨he.symm, fun m hm => List.mem_append_left _ hm⟩
  · intro e he
    unfold validateRequiredFields at he
    by_cases h : missingFieldMsgs row = []
    · simp [h] at he
    · simp [h] at he
      exact ⟨he.symm, fun m hm => List.mem_append_left _ hm⟩

/-- C10 witness: with a missing-path message from file discovery
already in the session log, a bad header in one file raises an error
whose log still contains that earlier, unrelated message. -/
theorem c10_error_log_shared_witness :
    ("Path \x22gone.csv\x22 does not exist")
      ∈ ["Path \x22gone.csv\x22 does not exist"]
          ++ columnErrorMsgs [] "a.csv" ["oops"] := by
  have h := (c10_error_log_shared [] "a.csv" ["oops"] []
      ["Path \x22gone.csv\x22 does not exist"]).1
    (.invalidColumns "a.csv" (["Path \x22gone.csv\x22 does not exist"]
      ++ columnErrorMsgs [] "a.csv" ["oops"])) (by decide)
  exact h.2 _ (by decide)

theorem applySimpleFields_businessName (r : ResourceDto) (row : Row) :
    (applySimpleFields r row).businessName = r.businessName := by
  unfold applySimpleFields
  split_ifs <;> rfl

theorem applyGrade_businessName (r : ResourceDto) (o : Option (String × String)) :
    (applyGrade r o).businessName = r.businessName := by
  cases o <;> rfl

theorem applyState_businessName (r : ResourceDto) (o : Option String) :
    (applyState r o).businessName = r.businessName := by
  cases o <;> rfl

theorem applyInterest_businessName (r : ResourceDto) (o : Option (List String)) :
    (applyInterest r o).businessName = r.businessName := by
  cases o <;> rfl

theorem applyCost_businessName (r : ResourceDto) (o : Option String) :
    (applyCost r o).businessName = r.businessName := by
  cases o <;> rfl

theorem applyInstruction_businessName (r : ResourceDto) (o : Option (List String)) :
    (applyInstruction r o).businessName = r.businessName := by
  cases o <;> rfl

theorem applyBoarding_businessName (r : ResourceDto) (o : Option (List String)) :
    (applyBoarding r o).businessName = r.businessName := by
  cases o <;> rfl

theorem applyGender_businessName (r : ResourceDto) (o : Option String) :
    (applyGender r o).businessName = r.businessName := by
  cases o <;> rfl

theorem applyLocationLimit_businessName (r : ResourceDto) (o : Option (List String)) :
    (applyLocationLimit r o).businessName = r.businessName := by
  cases o <;> rfl

theorem exceptStep_ok {a b : Type} {x : Except ParseError a}
    {f : a -> Except ParseError b} {v : b}
    (h : exceptStep x f = .ok v) : ∃ u, x = .ok u ∧ f u = .ok v := by
  cases x with
  | error e => exact Except.noConfusion h
  | ok u => exact ⟨u, rfl, h⟩

theorem parseRowCore_businessName (env : EnumRegistry)
    (cats subs : List String) (row : Row) (r : ResourceDto)
    (h : parseRowCore env cats subs row = .ok r) :
    r.businessName = some (rowGet row "businessName") := by
  unfold parseRowCore at h
  obtain ⟨cs, h1, h⟩ := exceptStep_ok h
  obtain ⟨ss, h2, h⟩ := exceptStep_ok h
  obtain ⟨go, h3, h⟩ := exceptStep_ok h
  obtain ⟨so, h4, h⟩ := exceptStep_ok h
  obtain ⟨io, h5, h⟩ := exceptStep_ok h
  obtain ⟨co, h6, h⟩ := exceptStep_ok h
  obtain ⟨no, h7, h⟩ := exceptStep_ok h
  obtain ⟨bo, h8, h⟩ := exceptStep_ok h
  obtain ⟨ho, h9, h⟩ := exceptStep_ok h
  obtain ⟨lo, h10, h⟩ := exceptStep_ok h
  injection h with hr
  subst hr
  simp [applyLocationLimit_businessName, applyGender_businessName,
    applyBoarding_businessName, applyInstruction_businessName,
    applyCost_businessName, applyInterest_businessName,
    applyState_businessName, applyGrade_businessName,
    applySimpleFields_businessName]

/-- C3 counterexample: the claim says an accepted row's `businessName`
is a non-empty string and that a present-but-empty `businessName`
column cannot yield a record with an empty `businessName`.  The Row
Normalizer accepts a row whose `businessName` value is `""` and copies
it into the record unchanged: `_parse_row` performs no emptiness check
on `businessName`. -/
theorem c3_counterexample :
    (parseRow {} ["Tutoring"] ["Math"]
        [("businessName", ""), ("category", "Tutoring"),
         ("subCategory", "Math")] []).2
      = .ok { id := 0, businessName := some "", category := some ["Tutoring"],
              subCategory := some ["Math"] } := by
  decide

/-- C3 (amended): for every row accepted by the Row Normalizer, the
returned record's `businessName` is never null — it is always
`some` of the row's raw `businessName` value — but that value may be
the empty string, since no emptiness check is performed. -/
theorem c3_businessName_non_null (env : EnumRegistry)
    (cats subs : List String) (row : Row) (log log2 : List String)
    (r : ResourceDto) (h : parseRow env cats subs row log = (log2, .ok r)) :
    r.businessName = some (rowGet row "businessName") := by
  unfold parseRow at h
  split at h
  · injection h with h1 h2
    exact Except.noConfusion h2
  · injection h with h1 h2
    exact parseRowCore_businessName _ _ _ _ _ h2

/-- C3 witness: a well-formed row with `businessName` `"Acme"`. -/
theorem c3_businessName_non_null_witness :
    ({ id := 0, businessName := some "Acme", category := some ["T"],
       subCategory := some ["M"] } : ResourceDto).businessName
      = some (rowGet [("businessName", "Acme"), ("category", "T"),
          ("subCategory", "M")] "businessName") :=
  c3_businessName_non_null {} ["T"] ["M"]
    [("businessName", "Acme"), ("category", "T"), ("subCategory", "M")] [] []
    { id := 0, businessName := some "Acme", category := some ["T"],
      subCategory := some ["M"] } (by decide)

/-- C9: a path that exists but is neither a directory nor a regular
file named `*.csv` is silently ignored by file discovery: the file set
and the error log are unchanged and zero not-found failures are
counted, so no aggregate path-not-found failure can arise from it. -/
theorem c9_non_csv_ignored (fp : String) (node : FsNode)
    (files errLog : List String)
    (hnotdir : ∀ cs, node ≠ FsNode.dir cs)
    (hnotcsv : node = FsNode.file → pyEndsWith fp ".csv" = false) :
    processFp fp (some node) files errLog = (files, errLog, 0) := by
  cases node with
  | file =>
      have h := hnotcsv rfl
      simp [processFp, processFpNode, h]
  | dir cs => exact absurd rfl (hnotdir cs)
  | other => rfl

/-- C9 witness: an existing plain file `notes.txt`. -/
theorem c9_non_csv_ignored_witness :
    processFp "notes.txt" (some FsNode.file) ["a.csv"] ["earlier"]
      = (["a.csv"], ["earlier"], 0) :=
  c9_non_csv_ignored "notes.txt" FsNode.file ["a.csv"] ["earlier"]
    (fun _ h => FsNode.noConfusion h) (fun _ => by decide)

/-- C2: a validation failure on a row aborts the file's parse at once —
the loop returns the error without touching the rows after the failing
one (the result does not depend on them), and the error propagates out
of the parse — and on the §8 three-row example the parse appends the
`Acme` record (with the phone set), fails at row 2 with
`UnknownCategory("X")`, and row 3 is never evaluated. -/
theorem c2_fail_fast :
    (∀ (env : EnumRegistry) (cats subs : List String) (st : SessionState)
        (n : Nat) (row : Row) (rest rest2 : List Row) (log2 : List String)
        (e : ParseError),
        parseRow env cats subs row st.errLog = (log2, .error e) →
        parseRowsLoop env cats subs st n (row :: rest)
            = ({ st with errLog := log2 }, .error e)
        ∧ parseRowsLoop env cats subs st n (row :: rest)
            = parseRowsLoop env cats subs st n (row :: rest2))
    ∧ parseCsv {} [] ["Tutoring"] ["Math"] "f.csv"
        { header := ["businessName", "category", "subCategory", "phone"],
          rows := [["Acme", "Tutoring", "Math", "555-1212"],
                   ["Beta", "Tutoring+X", "Math", ""],
                   ["Gamma", "Tutoring", "Bad", ""]] }
        { resources := [], errLog := [] }
      = ({ resources := [acmeRecord], errLog := [] },
         .error (.unknownCategory "X")) := by
  constructor
  · intro env cats subs st n row rest rest2 log2 e h
    constructor
    · unfold parseRowsLoop
      rw [h]
    · unfold parseRowsLoop
      rw [h]
  · decide

/-- C2 witness: the fail-fast clause instantiated at row 2 of the §8
example — the loop's outcome is the same whether or not row 3 follows. -/
theorem c2_fail_fast_witness :
    parseRowsLoop {} ["Tutoring"] ["Math"]
        { resources := [acmeRecord], errLog := [] } 1
        [[("businessName", "Beta"), ("category", "Tutoring+X"),
          ("subCategory", "Math"), ("phone", "")],
         [("businessName", "Gamma"), ("category", "Tutoring"),
          ("subCategory", "Bad"), ("phone", "")]]
      = parseRowsLoop {} ["Tutoring"] ["Math"]
          { resources := [acmeRecord], errLog := [] } 1
          [[("businessName", "Beta"), ("category", "Tutoring+X"),
            ("subCategory", "Math"), ("phone", "")]] :=
  (c2_fail_fast.1 {} ["Tutoring"] ["Math"]
    { resources := [acmeRecord], errLog := [] } 1
    [("businessName", "Beta"), ("category", "Tutoring+X"),
     ("subCategory", "Math"), ("phone", "")]
    [[("businessName", "Gamma"), ("category", "Tutoring"),
      ("subCategory", "Bad"), ("phone", "")]] []
    [] (.unknownCategory "X") (by decide)).2

theorem uploadLoop_spec (items : List (ResourceDto × UploadResponse)) :
    ∀ (n e : Nat) (ids : List Nat) (log : List String),
    uploadLoop items n e ids log
      = (n + (successIds items).length, e + (failedUploads items).length,
         ids ++ successIds items, log ++ uploadFailMsgs items) := by
  induction items with
  | nil =>
      intro n e ids log
      simp [uploadLoop, successIds, failedUploads, uploadFailMsgs]
  | cons it rest ih =>
      intro n e ids log
      obtain ⟨r, resp⟩ := it
      by_cases h : resp.status = 200
      · rw [show uploadLoop ((r, resp) :: rest) n e ids log
            = uploadLoop rest (n + 1) e (ids ++ [resp.resId]) log by
              simp [uploadLoop, h]]
        rw [ih]
        simp [successIds, failedUploads, uploadFailMsgs, h]
        omega
      · rw [show uploadLoop ((r, resp) :: rest) n e ids log
            = uploadLoop rest n (e + 1) ids (log ++ [uploadFailMsg r resp]) by
              simp [uploadLoop, h]]
        rw [ih]
        simp [successIds, failedUploads, uploadFailMsgs, h]
        omega

theorem upload_eq (items : List (ResourceDto × UploadResponse))
    (log0 : List String) :
    upload items log0
      = { rollbackFile := if (successIds items).length > 0
            then some (successIds items) else none,
          errLog := log0 ++ uploadFailMsgs items,
          outcome := if (failedUploads items).length > 0
            then .error ((failedUploads items).length, log0 ++ uploadFailMsgs items)
            else .ok (successIds items).length } := by
  unfold upload
  rw [uploadLoop_spec]
  simp

theorem mem_successIds (items : List (ResourceDto × UploadResponse))
    (it : ResourceDto × UploadResponse) (hm : it ∈ items)
    (h200 : it.2.status = 200) : it.2.resId ∈ successIds items := by
  unfold successIds
  rw [List.mem_filterMap]
  exact ⟨it, hm, by simp [h200]⟩

theorem successIds_length_of_all200 :
    ∀ (items : List (ResourceDto × UploadResponse)),
    (∀ it ∈ items, it.2.status = 200) →
    (successIds items).length = items.length
  | [] => fun _ => rfl
  | it :: rest => fun h => by
      have h200 := h it (List.mem_cons_self it rest)
      have hr := successIds_length_of_all200 rest
        (fun x hx => h x (List.mem_cons_of_mem _ hx))
      simp [successIds, h200] at hr ⊢
      exact hr

/-- C7: if any record fails to upload, `upload` raises the aggregate
`ResourceUploadError` carrying the per-record failure messages, and the
rollback-id file still holds the assigned id of every record that
succeeded (the file is written before the error is raised); if every
record succeeds, no error is raised and the full record count is
returned. -/
theorem c7_upload_aggregate (items : List (ResourceDto × UploadResponse))
    (log0 : List String) :
    (failedUploads items ≠ [] →
        (upload items log0).outcome
            = .error ((failedUploads items).length, log0 ++ uploadFailMsgs items)
        ∧ ∀ it ∈ items, it.2.status = 200 →
            it.2.resId ∈ ((upload items log0).rollbackFile.getD []))
    ∧ (failedUploads items = [] →
        (upload items log0).outcome = .ok (successIds items).length
        ∧ (successIds items).length = items.length) := by
  constructor
  · intro hne
    have hlen : (failedUploads items).length > 0 := List.length_pos.mpr hne
    constructor
    · rw [upload_eq]
      simp [hlen]
    · intro it hm h200
      have hid := mem_successIds items it hm h200
      have hsucc : (successIds items).length > 0 :=
        List.length_pos.mpr (List.ne_nil_of_mem hid)
      rw [upload_eq]
      simpa [hsucc] using hid
  · intro hnil
    have hall : ∀ it ∈ items, it.2.status = 200 := by
      intro it hm
      by_contra hne
      have hmf : it ∈ failedUploads items := by
        unfold failedUploads
        rw [List.mem_filter]
        exact ⟨hm, by simp [hne]⟩
      rw [hnil] at hmf
      exact List.not_mem_nil it hmf
    constructor
    · rw [upload_eq]
      simp [hnil]
    · exact successIds_length_of_all200 items hall

/-- C7 witness: a batch with one success (id 7) and one failure —
the aggregate error is raised and id 7 is still in the rollback file. -/
theorem c7_upload_aggregate_witness :
    (upload demoUploadItems []).outcome
        = .error ((failedUploads demoUploadItems).length,
            [] ++ uploadFailMsgs demoUploadItems)
    ∧ (7 : Nat) ∈ ((upload demoUploadItems []).rollbackFile.getD []) := by
  have h := (c7_upload_aggregate demoUploadItems []).1 (by decide)
  exact ⟨h.1, h.2 ({}, { status := 200, resId := 7 }) (by decide) rfl⟩

theorem parseRow_ok_of_noMissing (env : EnumRegistry)
    (cats subs : List String) (row : Row) (log : List String)
    (hm : missingFieldMsgs row = []) :
    parseRow env cats subs row log = (log, parseRowCore env cats subs row) := by
  unfold parseRow validateRequiredFields
  simp [hm]

theorem parseRowsLoop_ok (env : EnumRegistry) (cats subs : List String) :
    ∀ (rows : List Row) (recs : List ResourceDto),
    rowsRecords env cats subs rows = some recs →
    ∀ (st : SessionState) (n : Nat),
    parseRowsLoop env cats subs st n rows
      = ({ resources := st.resources ++ recs, errLog := st.errLog },
         .ok (n + recs.length)) := by
  intro rows
  induction rows with
  | nil =>
      intro recs h st n
      simp [rowsRecords] at h
      subst h
      simp [parseRowsLoop]
  | cons row rest ih =>
      intro recs h st n
      unfold rowsRecords at h
      by_cases hm : missingFieldMsgs row = []
      · rw [if_pos hm] at h
        cases hcore : parseRowCore env cats subs row with
        | error e =>
            rw [hcore] at h
            exact Option.noConfusion h
        | ok r =>
            rw [hcore] at h
            obtain ⟨recs2, hr2, hrecs⟩ := Option.map_eq_some.mp h
            simp only [parseRowsLoop,
              parseRow_ok_of_noMissing env cats subs row st.errLog hm, hcore]
            rw [ih recs2 hr2]
            subst hrecs
            simp [List.append_assoc]
            omega
      · rw [if_neg hm] at h
        exact Option.noConfusion h

theorem parseCsv_ok (env : EnumRegistry) (allowed cats subs : List String)
    (fp : String) (f : CSVFile) (recs : List ResourceDto)
    (h : parseFilePure env allowed cats subs fp f = some recs)
    (st : SessionState) :
    parseCsv env allowed cats subs fp f st
      = ({ resources := st.resources ++ recs, errLog := st.errLog },
         .ok recs.length) := by
  unfold parseFilePure at h
  by_cases hc : columnErrorMsgs allowed fp f.header = []
  · rw [if_pos hc] at h
    have hcols : validateColumnNames allowed fp f.header st.errLog
        = (st.errLog, .ok ()) := by
      unfold validateColumnNames
      simp [hc]
    unfold parseCsv
    rw [hcols]
    have hl := parseRowsLoop_ok env cats subs (fileRows f) recs h st 0
    simpa using hl
  · rw [if_neg hc] at h
    exact Option.noConfusion h

theorem parseAll_ok (env : EnumRegistry) (allowed cats subs : List String) :
    ∀ (files : List (String × CSVFile)),
    (∀ pf ∈ files, (parseFilePure env allowed cats subs pf.1 pf.2).isSome) →
    ∀ (st : SessionState),
    parseAll env allowed cats subs st files
      = ({ resources := st.resources
              ++ filesRecords env allowed cats subs files,
           errLog := st.errLog },
         .ok (filesRecords env allowed cats subs files).length) := by
  intro files
  induction files with
  | nil =>
      intro _ st
      simp [parseAll, filesRecords]
  | cons pf rest ih =>
      intro hok st
      obtain ⟨fp, f⟩ := pf
      obtain ⟨recs, hrecs⟩ := Option.isSome_iff_exists.mp
        (hok (fp, f) (List.mem_cons_self _ _))
      have hcsv := parseCsv_ok env allowed cats subs fp f recs hrecs st
      have hrest := ih (fun x hx => hok x (List.mem_cons_of_mem _ hx))
        { resources := st.resources ++ recs, errLog := st.errLog }
      have hfr : filesRecords env allowed cats subs ((fp, f) :: rest)
          = recs ++ filesRecords env allowed cats subs rest := by
        simp [filesRecords, hrecs]
      simp only [parseAll, hcsv, hrest, hfr]
      simp [List.append_assoc]

theorem filesRecords_length (env : EnumRegistry)
    (allowed cats subs : List String) (files : List (String × CSVFile)) :
    (filesRecords env allowed cats subs files).length
      = (files.map fun pf =>
          ((parseFilePure env allowed cats subs pf.1 pf.2).getD []).length).sum := by
  simp only [filesRecords, List.length_flatten, List.map_map]
  rfl

/-- C6: when every input file parses without error, `parseAll` returns
exactly the sum of the per-file row counts and leaves exactly that many
records in the session's collection, and both facts are independent of
the order in which the file tasks are processed (any permutation of the
file list gives the same count and the same collection size). -/
theorem c6_parse_all (env : EnumRegistry) (allowed cats subs : List String)
    (files files2 : List (String × CSVFile)) (st : SessionState)
    (hok : ∀ pf ∈ files, (parseFilePure env allowed cats subs pf.1 pf.2).isSome)
    (hperm : files2.Perm files) :
    parseAll env allowed cats subs st files2
      = ({ resources := st.resources
              ++ filesRecords env allowed cats subs files2,
           errLog := st.errLog },
         .ok ((files2.map fun pf =>
            ((parseFilePure env allowed cats subs pf.1 pf.2).getD []).length).sum))
    ∧ ((files2.map fun pf =>
          ((parseFilePure env allowed cats subs pf.1 pf.2).getD []).length).sum
        = (files.map fun pf =>
            ((parseFilePure env allowed cats subs pf.1 pf.2).getD []).length).sum)
    ∧ (st.resources ++ filesRecords env allowed cats subs files2).length
        = st.resources.length
          + (files2.map fun pf =>
              ((parseFilePure env allowed cats subs pf.1 pf.2).getD []).length).sum := by
  have hok2 : ∀ pf ∈ files2,
      (parseFilePure env allowed cats subs pf.1 pf.2).isSome :=
    fun pf hpf => hok pf (hperm.mem_iff.mp hpf)
  have hall := parseAll_ok env allowed cats subs files2 hok2 st
  refine ⟨?_, ?_, ?_⟩
  · rw [hall, filesRecords_length]
  · exact (hperm.map _).sum_eq
  · rw [List.length_append, filesRecords_length]

/-- C6 witness: two valid files (one row and two rows) processed in
swapped completion order still give count 3. -/
theorem c6_parse_all_witness :
    parseAll {} [] ["T"] ["M"] { resources := [], errLog := [] }
        [demoFileB, demoFileA]
      = ({ resources := [] ++ filesRecords {} [] ["T"] ["M"] [demoFileB, demoFileA],
           errLog := [] },
         .ok (([demoFileB, demoFileA].map fun pf =>
            ((parseFilePure {} [] ["T"] ["M"] pf.1 pf.2).getD []).length).sum))
    ∧ ([] ++ filesRecords {} [] ["T"] ["M"] [demoFileB, demoFileA]).length
        = ([] : List ResourceDto).length
          + (([demoFileB, demoFileA].map fun pf =>
              ((parseFilePure {} [] ["T"] ["M"] pf.1 pf.2).getD []).length).sum) := by
  have h := c6_parse_all {} [] ["T"] ["M"] [demoFileA, demoFileB]
    [demoFileB, demoFileA] { resources := [], errLog := [] }
    (by decide) (List.Perm.swap _ _ _)
  exact ⟨h.1, h.2.2⟩

end UploadScript
